import Mathlib

/-!
Verification of the dex-aggregator-mvp repository.

Part 1 embeds the TypeScript distribution optimizer `findBestDistribution`
(solver) over an explicit model of JavaScript number semantics: out-of-bounds
array reads yield `undefined`, arithmetic involving `undefined` yields `NaN`,
and every `>` comparison involving `NaN`/`undefined` is `false`.

Part 2 embeds the Solidity `UniswapV3DexRouter` contract (`aggregateSwap`,
`_swapByUniswapV3`, `uniswapV3SwapCallback`, `computePoolAddress`) as explicit
state passing with EVM revert semantics at the external call boundary.
-/

/-- JavaScript numeric values as they occur in the solver: ordinary numbers
(all arithmetic performed by the solver on well-formed inputs is integer
addition, which is exact in IEEE doubles, so the payload is `Int`),
`-Infinity` (the solver's initialization sentinel), `NaN`, and `undefined`
(the result of an out-of-bounds array read). -/
inductive JSNum where
  | undef : JSNum
  | nan : JSNum
  | negInf : JSNum
  | num (v : Int) : JSNum
deriving DecidableEq, Repr

/-- JavaScript array indexing `row[i]`: `undefined` when out of bounds. -/
def jget (row : List JSNum) (i : Nat) : JSNum :=
  row.getD i JSNum.undef

/-- JavaScript `+` on the values reachable in the solver: `undefined` coerces
to `NaN`; `NaN` is absorbing; `-Infinity + finite = -Infinity`. -/
def jadd : JSNum → JSNum → JSNum
  | JSNum.num a, JSNum.num b => JSNum.num (a + b)
  | JSNum.negInf, JSNum.num _ => JSNum.negInf
  | JSNum.num _, JSNum.negInf => JSNum.negInf
  | JSNum.negInf, JSNum.negInf => JSNum.negInf
  | _, _ => JSNum.nan

/-- JavaScript `>`: any comparison involving `NaN` (hence also `undefined`)
is `false`; `-Infinity` is below every number. -/
def jgt : JSNum → JSNum → Bool
  | JSNum.num a, JSNum.num b => b < a
  | JSNum.num _, JSNum.negInf => true
  | _, _ => false

/-- One cell of the solver's main double loop (part_001 lines 26-42): starting
value `answers[p][s] = answers[p-1][s]` with parent `s`, then for
`curPart = 1..s`, overwrite with
`amounts[p][curPart] + amounts[p-1][s-curPart]` (recording parent
`s - curPart`) whenever that sum compares `>` against `amounts[p-1][s]`.
Note the source compares against the raw row `amounts[p-1]`, not against the
DP row `answers[p-1]` and not against the running cell value. -/
def dpCell (amtP amtPrev : List JSNum) (startVal : JSNum) (s : Nat) :
    JSNum × Nat :=
  (List.range' 1 s).foldl
    (fun acc curPart =>
      if jgt (jadd (jget amtP curPart) (jget amtPrev (s - curPart)))
          (jget amtPrev s) then
        (jadd (jget amtP curPart) (jget amtPrev (s - curPart)), s - curPart)
      else acc)
    (startVal, s)

/-- Row `p ≥ 1` of `answers` and `parents`: cells for `s = 0..parts`. -/
def dpRow (amtP amtPrev ansPrev : List JSNum) (parts : Nat) :
    List JSNum × List Nat :=
  ((List.range (parts + 1)).map
    (fun s => (dpCell amtP amtPrev (jget ansPrev s) s).1),
   (List.range (parts + 1)).map
    (fun s => (dpCell amtP amtPrev (jget ansPrev s) s).2))

/-- Rows `1..pools-1` of the DP tables, threading the previous amounts row and
the previous answers row exactly as the source's `p` loop does. -/
def dpTail : List (List JSNum) → List JSNum → List JSNum → Nat →
    List (List JSNum × List Nat)
  | [], _, _, _ => []
  | a :: rest, prevAmt, prevAns, parts =>
    dpRow a prevAmt prevAns parts ::
      dpTail rest a (dpRow a prevAmt prevAns parts).1 parts

/-- Row 0 of `answers` (part_001 lines 17-23): `answers[0][s] = amounts[0][s]`
for `s = 0..parts`; note `s = parts` reads out of bounds. -/
def ansRow0 (amt0 : List JSNum) (parts : Nat) : List JSNum :=
  (List.range (parts + 1)).map (fun s => jget amt0 s)

/-- The reconstruction loop (part_001 lines 49-54):
`for (p = pools-1; p >= 0 && partsLeft > 0; p--) { distribution[p] =
partsLeft - parents[p][partsLeft]; partsLeft = parents[p][partsLeft]; }`.
The first argument of the recursion is `p + 1`. -/
def reconLoop (parents : List (List Nat)) : Nat → Nat → List Int → List Int
  | 0, _, dist => dist
  | p + 1, partsLeft, dist =>
    if partsLeft = 0 then dist
    else
      reconLoop parents p ((parents.getD p []).getD partsLeft 0)
        (dist.set p ((partsLeft : Int) - ((parents.getD p []).getD partsLeft 0 : Int)))

/-- The solver `findBestDistribution` (src/unnamed/part_001), transliterated.
`parts` is `amounts[0].length` exactly as in the source (not `length - 1`).
The final `answers[0] = amounts[0]` reassignment in the source is
observationally a no-op for the returned total (`answers[0][s] = amounts[0][s]`
for every `s` read), so the total is read from the last computed answers row
in every case. The `-Infinity` initialization of rows `p ≥ 1` is fully
overwritten by the main loop before any read and so does not appear. -/
def findBestDistribution (amounts : List (List JSNum)) :
    Except String (JSNum × List Int) :=
  match amounts with
  | [] => Except.error "no pools passed in"
  | amt0 :: rest =>
    let pools := rest.length + 1
    let parts := amt0.length
    let row0 : List JSNum × List Nat :=
      (ansRow0 amt0 parts, List.replicate (parts + 1) 0)
    let allRows := row0 :: dpTail rest amt0 row0.1 parts
    let lastRow := allRows.getLastD ([], [])
    let distribution :=
      reconLoop (allRows.map Prod.snd) pools parts
        (List.replicate pools (0 : Int))
    Except.ok (jget lastRow.1 parts, distribution)

/-- Modelled from the spec: the exhaustive optimum the spec's §4.1 transition
describes — the maximum over all integer splits `(k_0,...,k_{K-1})` with
`Σ k_i = s` of `Σ amounts[i][k_i]` (rows indexed 0..parts, missing entries
read as 0). Used only to compare `findBestDistribution` against the spec's
stated value. -/
def specBestTotal : List (List Int) → Nat → Int
  | [], _ => 0
  | [r], s => r.getD s 0
  | r :: r2 :: rest, s =>
    ((List.range (s + 1)).map
      (fun k => r.getD k 0 + specBestTotal (r2 :: rest) (s - k))).foldl
      max (r.getD 0 0 + specBestTotal (r2 :: rest) s)

/-! ## Part 2: the Solidity `UniswapV3DexRouter` (src/unnamed/part_006) -/

/-- EVM account identities; `0` is the zero address. -/
abbrev Addr := Nat

/-- `SwapCallbackData` struct (part_006 lines 91-95). -/
structure SwapCallbackData where
  token0 : Addr
  token1 : Addr
  poolFee : Nat
deriving DecidableEq, Repr

/-- `Route` struct (part_006 lines 77-83). -/
structure Route where
  pair : Addr
  fee : Nat
  tokenIn : Addr
  tokenOut : Addr
  amountIn : Nat
deriving DecidableEq, Repr

/-- The revert reasons reachable in the contract: the declared custom errors
`DeadlinePassed` and `TransferTokenInFailed`, the `require` message strings,
and the modelled pool-side failure. -/
inductive Err where
  | deadlinePassed (deadline : Nat) : Err
  | tokenInEqTokenOut : Err
  | invalidPoolAddress : Err
  | invalidCaller : Err
  | noPayerRegistered : Err
  | transferTokenInFailed (tokenIn spender : Addr) (amount : Nat) : Err
  | slippage : Err
  | token0NotLtToken1 : Err
  | poolInsufficientReserves : Err
deriving DecidableEq, Repr

/-- The mutable world the router touches: the transient payer slot
(`PAYER_T_SLOT`, 0 meaning unset, as the contract checks `payer != address(0)`)
and the asset ledger (ERC20 balances `token → owner → amount` and allowances
`token → owner → spender → amount`). -/
structure State where
  payerSlot : Addr
  balances : Addr → Addr → Nat
  allowances : Addr → Addr → Addr → Nat

/-- The immutable environment: the router's own address, the factory constant
`I_FACTORY`, the CREATE2 digest (the keccak256-based address computation of
part_006 lines 303-309 is an EVM primitive external to the repository, modelled
as an abstract pure deterministic function of the public parameters — the
factory being fixed, of `(token0, token1, fee)`), and the quote each pool
delivers for a given input (the pool's pricing is an external collaborator,
out of scope per spec §1). -/
structure Config where
  router : Addr
  poolAddrOf : Addr → Addr → Nat → Addr
  poolQuote : Addr → Nat → Nat

/-- Modelled from the spec (§1 Asset Ledger, an external collaborator):
standard ERC20 `transferFrom` semantics — succeed and move the balance,
decrementing the spender's allowance, exactly when both the owner's balance
and the spender's allowance cover the amount; otherwise return `false` and
change nothing (the router checks the boolean result). -/
def transferFrom (token src dst spender : Addr) (amount : Nat) (s : State) :
    Bool × State :=
  if amount ≤ s.balances token src ∧ amount ≤ s.allowances token src spender
  then
    (true,
      { s with
        balances := fun t o =>
          if t = token ∧ o = dst then
            (if t = token ∧ o = src then s.balances t o - amount
             else s.balances t o) + amount
          else
            (if t = token ∧ o = src then s.balances t o - amount
             else s.balances t o),
        allowances := fun t o sp =>
          if t = token ∧ o = src ∧ sp = spender then
            s.allowances t o sp - amount
          else s.allowances t o sp })
  else (false, s)

/-- Modelled from the spec (§1 Asset Ledger): plain ERC20 `transfer` used by
the pool model to deliver the output leg; succeeds exactly when the sender's
balance covers the amount. -/
def transferTok (token src dst : Addr) (amount : Nat) (s : State) :
    Bool × State :=
  if amount ≤ s.balances token src then
    (true,
      { s with
        balances := fun t o =>
          if t = token ∧ o = dst then
            (if t = token ∧ o = src then s.balances t o - amount
             else s.balances t o) + amount
          else
            (if t = token ∧ o = src then s.balances t o - amount
             else s.balances t o) })
  else (false, s)

/-- `computePoolAddress` (part_006 lines 294-310): requires `token0 < token1`,
then derives the pool identity purely from the ordered pair and the fee via
the CREATE2 computation (`cfg.poolAddrOf`). -/
def computePoolAddress (cfg : Config) (token0 token1 : Addr) (poolFee : Nat) :
    Except Err Addr :=
  if token0 < token1 then Except.ok (cfg.poolAddrOf token0 token1 poolFee)
  else Except.error Err.token0NotLtToken1

/-- `uniswapV3SwapCallback` (part_006 lines 233-274), with `caller` standing
for `msg.sender`. Recompute the expected pool from the callback data, require
an exact match with the caller, require a bound payer in the transient slot,
then pay whichever delta is positive (token0 first) via `transferFrom`
from the payer to the pool, reverting `TransferTokenInFailed` if the ledger
rejects it; if neither delta is positive, do nothing and succeed. -/
def uniswapV3SwapCallback (cfg : Config) (caller : Addr)
    (amount0Delta amount1Delta : Int) (data : SwapCallbackData) (s : State) :
    Except Err State :=
  match computePoolAddress cfg data.token0 data.token1 data.poolFee with
  | Except.error e => Except.error e
  | Except.ok expectedPool =>
    if caller = expectedPool then
      if s.payerSlot = 0 then Except.error Err.noPayerRegistered
      else if 0 < amount0Delta then
        let amountToPay := amount0Delta.toNat
        let res := transferFrom data.token0 s.payerSlot caller cfg.router
          amountToPay s
        if res.1 then Except.ok res.2
        else Except.error
          (Err.transferTokenInFailed data.token0 s.payerSlot amountToPay)
      else if 0 < amount1Delta then
        let amountToPay := amount1Delta.toNat
        let res := transferFrom data.token1 s.payerSlot caller cfg.router
          amountToPay s
        if res.1 then Except.ok res.2
        else Except.error
          (Err.transferTokenInFailed data.token1 s.payerSlot amountToPay)
      else Except.ok s
    else Except.error Err.invalidCaller

/-- A direct external invocation of the callback, with EVM revert semantics at
the call boundary: a revert rolls every state change of the invocation back. -/
def uniswapV3SwapCallbackCall (cfg : Config) (caller : Addr)
    (amount0Delta amount1Delta : Int) (data : SwapCallbackData) (s : State) :
    Except Err Unit × State :=
  match uniswapV3SwapCallback cfg caller amount0Delta amount1Delta data s with
  | Except.ok s' => (Except.ok (), s')
  | Except.error e => (Except.error e, s)

/-- Modelled from the spec (§4.3 step 2, the venue's swap primitive — pool
code is external to the repository): on `swap(recipient, zeroForOne,
amountSpecified, ...)` the pool prices the input via `cfg.poolQuote`, delivers
the output token to the recipient from its own reserves, reports the two
deltas (the input leg positive and owed, the output leg negative), and
synchronously calls back into the router requesting payment; any failure in
the callback propagates (no catching anywhere in the call chain). -/
def poolSwap (cfg : Config) (pool recipient : Addr) (zeroForOne : Bool)
    (amountSpecified : Int) (data : SwapCallbackData) (s : State) :
    Except Err ((Int × Int) × State) :=
  let tokenOut := if zeroForOne then data.token1 else data.token0
  let amountOut := cfg.poolQuote pool amountSpecified.toNat
  let deliver := transferTok tokenOut pool recipient amountOut s
  if deliver.1 then
    let a0 : Int := if zeroForOne then amountSpecified else -(amountOut : Int)
    let a1 : Int := if zeroForOne then -(amountOut : Int) else amountSpecified
    match uniswapV3SwapCallback cfg pool a0 a1 data deliver.2 with
    | Except.error e => Except.error e
    | Except.ok s2 => Except.ok ((a0, a1), s2)
  else Except.error Err.poolInsufficientReserves

/-- `_swapByUniswapV3` (part_006 lines 173-210), with `sender` standing for
`msg.sender` of the outer call (the recipient the source passes to
`pool.swap`): require distinct tokens, sort them, recompute and require the
expected pool address, then call the pool's swap and return the delivered
output amount (`uint256(-amount1)` for zeroForOne, `uint256(-amount0)`
otherwise). -/
def swapByUniswapV3 (cfg : Config) (sender : Addr) (r : Route) (s : State) :
    Except Err (Nat × State) :=
  if r.tokenIn = r.tokenOut then Except.error Err.tokenInEqTokenOut
  else
    let zeroForOne := decide (r.tokenIn < r.tokenOut)
    let token0 := if zeroForOne then r.tokenIn else r.tokenOut
    let token1 := if zeroForOne then r.tokenOut else r.tokenIn
    match computePoolAddress cfg token0 token1 r.fee with
    | Except.error e => Except.error e
    | Except.ok expectedPool =>
      if r.pair = expectedPool then
        let callbackData : SwapCallbackData :=
          { token0 := token0, token1 := token1, poolFee := r.fee }
        match poolSwap cfg r.pair sender zeroForOne (r.amountIn : Int)
          callbackData s with
        | Except.error e => Except.error e
        | Except.ok ((a0, a1), s') =>
          Except.ok ((if zeroForOne then (-a1).toNat else (-a0).toNat), s')
      else Except.error Err.invalidPoolAddress

/-- The route loop of `aggregateSwap` (part_006 lines 144-150): execute each
route in order, accumulating `totalAmountOut += _swapByUniswapV3(routes[i])`.
-/
def execRoutes (cfg : Config) (sender : Addr) :
    List Route → Nat → State → Except Err (Nat × State)
  | [], total, s => Except.ok (total, s)
  | r :: rest, total, s =>
    match swapByUniswapV3 cfg sender r s with
    | Except.error e => Except.error e
    | Except.ok (out, s') => execRoutes cfg sender rest (total + out) s'

/-- The body of `aggregateSwap` (part_006 lines 132-152): deadline check,
`tstore` of the payer, the route loop, and the final
`require(totalAmountOut >= minAmountOut)`. The function has no return value
in the source; the total is only compared against `minAmountOut`. -/
def aggregateSwapBody (cfg : Config) (sender : Addr) (routes : List Route)
    (minAmountOut deadline now : Nat) (s : State) : Except Err State :=
  if deadline < now then Except.error (Err.deadlinePassed deadline)
  else
    match execRoutes cfg sender routes 0 { s with payerSlot := sender } with
    | Except.error e => Except.error e
    | Except.ok (total, s') =>
      if minAmountOut ≤ total then Except.ok s' else Except.error Err.slippage

/-- The external call `aggregateSwap(routes, minAmountOut, deadline)` with EVM
revert semantics at the call boundary: on any revert the caller observes the
error and the pre-call state (every effect of the invocation rolled back);
on success the invocation's final state stands and no value is returned
(the source function is declared without a return value). -/
def aggregateSwap (cfg : Config) (sender : Addr) (routes : List Route)
    (minAmountOut deadline now : Nat) (s : State) : Except Err Unit × State :=
  match aggregateSwapBody cfg sender routes minAmountOut deadline now s with
  | Except.ok s' => (Except.ok (), s')
  | Except.error e => (Except.error e, s)

/-! ## Concrete fixtures used by witnesses and counterexamples -/

/-- A concrete environment: router at address 1, CREATE2 derivation modelled
as an injective arithmetic digest on this address range, every pool quoting
`q` output units for any input. -/
def cfgW (q : Nat) : Config :=
  { router := 1
    poolAddrOf := fun t0 t1 fee => 1000 * t0 + 100 * t1 + fee
    poolQuote := fun _ _ => q }

/-- A concrete ledger: pools `11600`, `14100`, `21100` hold 100 units of
token 11; user 2 holds 100 units of token 10 and has approved the router
(address 1) for 8 units of token 10; the transient payer slot is empty. -/
def stW : State :=
  { payerSlot := 0
    balances := fun t o =>
      if t = 11 ∧ (o = 11600 ∨ o = 14100 ∨ o = 21100) then 100
      else if t = 10 ∧ o = 2 then 100 else 0
    allowances := fun t o sp => if t = 10 ∧ o = 2 ∧ sp = 1 then 8 else 0 }

/-- Three legs of 5 input units each through the three fee tiers; the user's
allowance of 8 covers only the first leg's payment of 5, so the second leg's
callback payment is rejected by the ledger. -/
def routesW3 : List Route :=
  [ { pair := 11600, fee := 500, tokenIn := 10, tokenOut := 11, amountIn := 5 },
    { pair := 14100, fee := 3000, tokenIn := 10, tokenOut := 11, amountIn := 5 },
    { pair := 21100, fee := 10000, tokenIn := 10, tokenOut := 11, amountIn := 5 } ]

/-- A single leg of 5 input units through the 500 fee tier. -/
def routesW1 : List Route :=
  [ { pair := 11600, fee := 500, tokenIn := 10, tokenOut := 11, amountIn := 5 } ]

/-! ## Helper lemmas -/

lemma foldlConst {α β : Type} (l : List β) (g : α → β → α)
    (h : ∀ a b, g a b = a) : ∀ init : α, l.foldl g init = init := by
  induction l with
  | nil => intro init; rfl
  | cons b l ih => intro init; rw [List.foldl_cons, h]; exact ih init

lemma getDConcatLength {α : Type} (l : List α) (y d : α) :
    (l ++ [y]).getD l.length d = y := by
  induction l with
  | nil => rfl
  | cons a l ih => simp only [List.cons_append, List.length_cons, List.getD]; exact ih

lemma getDMapRange {α : Type} (n m : Nat) (g : Nat → α) (d : α) (h : m < n) :
    ((List.range n).map g).getD m d = g m := by
  rw [List.getD_eq_getElem?_getD, List.getElem?_map, List.getElem?_range h]
  rfl

lemma setGetDNe (l : List Int) :
    ∀ (i j : Nat) (v : Int), i ≠ j → (l.set i v).getD j 0 = l.getD j 0 := by
  induction l with
  | nil => intro i j v _; rfl
  | cons a l ih =>
    intro i j v hij
    match i, j with
    | 0, 0 => exact absurd rfl hij
    | 0, j + 1 => rfl
    | i + 1, 0 => rfl
    | i + 1, j + 1 =>
      simp only [List.set, List.getD]
      exact ih i j v (fun he => hij (by rw [he]))

lemma setGetDSelf (l : List Int) :
    ∀ (i : Nat) (v : Int), i < l.length → (l.set i v).getD i 0 = v := by
  induction l with
  | nil => intro i v h; exact absurd h (by simp)
  | cons a l ih =>
    intro i v h
    match i with
    | 0 => rfl
    | i + 1 => simpa [List.set, List.getD] using ih i v (by simpa using h)

lemma reconGetDHi (parents : List (List Nat)) :
    ∀ (p j partsLeft : Nat) (dist : List Int), p ≤ j →
      (reconLoop parents p partsLeft dist).getD j 0 = dist.getD j 0 := by
  intro p
  induction p with
  | zero => intro j partsLeft dist _; rfl
  | succ p ih =>
    intro j partsLeft dist hpj
    unfold reconLoop
    by_cases h0 : partsLeft = 0
    · simp [h0]
    · simp only [h0, if_false]
      rw [ih j _ _ (Nat.le_of_succ_le hpj)]
      exact setGetDNe _ p j _ (Nat.ne_of_lt hpj)

lemma reconLength (parents : List (List Nat)) :
    ∀ (p partsLeft : Nat) (dist : List Int),
      (reconLoop parents p partsLeft dist).length = dist.length := by
  intro p
  induction p with
  | zero => intro partsLeft dist; rfl
  | succ p ih =>
    intro partsLeft dist
    unfold reconLoop
    by_cases h0 : partsLeft = 0
    · simp [h0]
    · simp only [h0, if_false]
      rw [ih]
      exact List.length_set ..

lemma getLastDFst {α β : Type} :
    ∀ (l : List (α × β)) (r : α × β),
      (l.getLastD r).1 = (l.map Prod.fst).getLastD r.1 := by
  intro l
  induction l with
  | nil => intro r; rfl
  | cons x t ih =>
    intro r
    rw [List.getLastD_cons, List.map_cons, List.getLastD_cons]
    exact ih x

lemma getLastDConcat {α : Type} (l : List α) :
    ∀ (y d : α), (l ++ [y]).getLastD d = y := by
  induction l with
  | nil => intro y d; rfl
  | cons a l ih =>
    intro y d
    rw [List.cons_append, List.getLastD_cons]
    exact ih y a

lemma jgtUndef (x : JSNum) : jgt x JSNum.undef = false := by
  cases x <;> rfl

lemma jgetOob (l : List JSNum) (i : Nat) (h : l.length ≤ i) :
    jget l i = JSNum.undef := by
  unfold jget
  exact List.getD_eq_default _ _ h

lemma dpCellOob (amtP amtPrev : List JSNum) (startVal : JSNum) (s : Nat)
    (h : amtPrev.length ≤ s) : dpCell amtP amtPrev startVal s = (startVal, s) := by
  unfold dpCell
  apply foldlConst
  intro acc k
  rw [jgetOob amtPrev s h, jgtUndef]
  simp

lemma dpTailAppend (xs : List (List JSNum)) (z : List JSNum) :
    ∀ (pa pr : List JSNum) (parts : Nat),
      dpTail (xs ++ [z]) pa pr parts =
        dpTail xs pa pr parts ++
          [dpRow z (xs.getLastD pa)
            (((dpTail xs pa pr parts).map Prod.fst).getLastD pr) parts] := by
  induction xs with
  | nil => intro pa pr parts; rfl
  | cons a xs ih =>
    intro pa pr parts
    simp only [List.cons_append]
    unfold dpTail
    rw [ih]
    simp only [List.getLastD_cons, List.map_cons, List.cons_append]

lemma transferFromPayer (token src dst spender : Addr) (amount : Nat)
    (s : State) : (transferFrom token src dst spender amount s).2.payerSlot =
      s.payerSlot := by
  unfold transferFrom
  split <;> rfl

lemma transferTokPayer (token src dst : Addr) (amount : Nat) (s : State) :
    (transferTok token src dst amount s).2.payerSlot = s.payerSlot := by
  unfold transferTok
  split <;> rfl

lemma callbackPayer (cfg : Config) (caller : Addr) (a0 a1 : Int)
    (data : SwapCallbackData) (s s' : State)
    (h : uniswapV3SwapCallback cfg caller a0 a1 data s = Except.ok s') :
    s'.payerSlot = s.payerSlot := by
  unfold uniswapV3SwapCallback at h
  revert h
  cases computePoolAddress cfg data.token0 data.token1 data.poolFee with
  | error e => intro h; exact absurd h (by simp)
  | ok expectedPool =>
    simp only
    split
    · split
      · intro h; exact absurd h (by simp)
      · split
        · split
          · intro h
            cases h
            exact transferFromPayer ..
          · intro h; exact absurd h (by simp)
        · split
          · split
            · intro h
              cases h
              exact transferFromPayer ..
            · intro h; exact absurd h (by simp)
          · intro h
            cases h
            rfl
    · intro h; exact absurd h (by simp)

lemma poolSwapPayer (cfg : Config) (pool recipient : Addr) (zeroForOne : Bool)
    (amountSpecified : Int) (data : SwapCallbackData) (s : State)
    (ab : Int × Int) (s' : State)
    (h : poolSwap cfg pool recipient zeroForOne amountSpecified data s =
      Except.ok (ab, s')) : s'.payerSlot = s.payerSlot := by
  unfold poolSwap at h
  dsimp only at h
  repeat' split at h
  all_goals try exact Except.noConfusion h
  all_goals
    cases h
    have hp := callbackPayer _ _ _ _ _ _ _ (by assumption)
    rw [hp, transferTokPayer]

lemma swapByPayer (cfg : Config) (sender : Addr) (r : Route) (s : State)
    (out : Nat) (s' : State)
    (h : swapByUniswapV3 cfg sender r s = Except.ok (out, s')) :
    s'.payerSlot = s.payerSlot := by
  unfold swapByUniswapV3 at h
  dsimp only at h
  repeat' split at h
  all_goals try exact Except.noConfusion h
  all_goals
    cases h
    exact poolSwapPayer _ _ _ _ _ _ _ _ _ (by assumption)

lemma execRoutesPayer (cfg : Config) (sender : Addr) :
    ∀ (routes : List Route) (total : Nat) (s : State) (res : Nat × State),
      execRoutes cfg sender routes total s = Except.ok res →
      res.2.payerSlot = s.payerSlot := by
  intro routes
  induction routes with
  | nil =>
    intro total s res h
    cases h
    rfl
  | cons r rest ih =>
    intro total s res h
    unfold execRoutes at h
    revert h
    split
    · intro h; exact absurd h (by simp)
    · case h_2 p hsw =>
      intro h
      rw [ih _ _ _ h, swapByPayer _ _ _ _ _ _ hsw]

lemma aggregateSwapErrState (cfg : Config) (sender : Addr)
    (routes : List Route) (m dl now : Nat) (s : State) (e : Err)
    (h : (aggregateSwap cfg sender routes m dl now s).1 = Except.error e) :
    (aggregateSwap cfg sender routes m dl now s).2 = s := by
  unfold aggregateSwap at h ⊢
  revert h
  cases aggregateSwapBody cfg sender routes m dl now s with
  | ok s' => intro h; exact absurd h (by simp)
  | error e' => intro _; rfl

lemma dpRowFstGet (amtP amtPrev ansPrev : List JSNum) (parts s : Nat)
    (h : s < parts + 1) :
    jget (dpRow amtP amtPrev ansPrev parts).1 s =
      (dpCell amtP amtPrev (jget ansPrev s) s).1 := by
  unfold dpRow jget
  exact getDMapRange _ _ _ _ h

lemma dpRowSndGetD (amtP amtPrev ansPrev : List JSNum) (parts s : Nat)
    (h : s < parts + 1) :
    (dpRow amtP amtPrev ansPrev parts).2.getD s 0 =
      (dpCell amtP amtPrev (jget ansPrev s) s).2 := by
  unfold dpRow
  exact getDMapRange _ _ _ _ h

lemma dpTailLength :
    ∀ (xs : List (List JSNum)) (pa pr : List JSNum) (parts : Nat),
      (dpTail xs pa pr parts).length = xs.length := by
  intro xs
  induction xs with
  | nil => intro pa pr parts; rfl
  | cons a t ih =>
    intro pa pr parts
    unfold dpTail
    rw [List.length_cons, ih, List.length_cons]

lemma reconLoopZeroParts (parents : List (List Nat)) :
    ∀ (n : Nat) (dist : List Int), reconLoop parents n 0 dist = dist := by
  intro n dist
  cases n with
  | zero => rfl
  | succ p =>
    unfold reconLoop
    rw [if_pos rfl]

lemma getDReplicateZero : ∀ (n j : Nat), (List.replicate n (0 : Int)).getD j 0 = 0 := by
  intro n
  induction n with
  | zero => intro j; rfl
  | succ n ih =>
    intro j
    cases j with
    | zero => rfl
    | succ j => exact ih j

lemma getLastDMemCons {α : Type} :
    ∀ (l : List α) (a : α), l.getLastD a ∈ a :: l := by
  intro l
  induction l with
  | nil => intro a; exact List.mem_cons_self _ _
  | cons x t ih =>
    intro a
    rw [List.getLastD_cons]
    exact List.mem_cons_of_mem a (ih x)

lemma fBDConsEq (amt0 : List JSNum) (rest : List (List JSNum)) :
    findBestDistribution (amt0 :: rest) =
      Except.ok
        (jget
          (((dpTail rest amt0 (ansRow0 amt0 amt0.length) amt0.length).map
              Prod.fst).getLastD (ansRow0 amt0 amt0.length)) amt0.length,
         reconLoop
           (List.replicate (amt0.length + 1) 0 ::
             (dpTail rest amt0 (ansRow0 amt0 amt0.length) amt0.length).map
               Prod.snd)
           (rest.length + 1) amt0.length
           (List.replicate (rest.length + 1) (0 : Int))) := by
  unfold findBestDistribution
  dsimp only
  rw [List.getLastD_cons, getLastDFst]
  rfl

lemma reconLoopStep (parents : List (List Nat)) (p partsLeft : Nat)
    (dist : List Int) (h : ¬ partsLeft = 0) :
    reconLoop parents (p + 1) partsLeft dist =
      reconLoop parents p ((parents.getD p []).getD partsLeft 0)
        (dist.set p ((partsLeft : Int) -
          ((parents.getD p []).getD partsLeft 0 : Int))) := by
  have hstep : reconLoop parents (p + 1) partsLeft dist =
      if partsLeft = 0 then dist
      else reconLoop parents p ((parents.getD p []).getD partsLeft 0)
        (dist.set p ((partsLeft : Int) -
          ((parents.getD p []).getD partsLeft 0 : Int))) := rfl
  rw [hstep, if_neg h]

/-- C9: appending a venue whose every entry is 0 to a non-empty quote matrix
with uniform row length leaves the returned `totalAmountOut` unchanged and
assigns 0 parts to the appended venue (and the distribution grows by exactly
one entry). -/
theorem claim9_append_zero_venue
    (amt0 : List JSNum) (rest : List (List JSNum)) (L : Nat)
    (hlen : ∀ r ∈ amt0 :: rest, r.length = L) :
    ∃ t d t' d',
      findBestDistribution (amt0 :: rest) = Except.ok (t, d) ∧
      findBestDistribution
        ((amt0 :: rest) ++ [List.replicate L (JSNum.num 0)]) =
        Except.ok (t', d') ∧
      t' = t ∧ d'.getD (rest.length + 1) 0 = 0 ∧
      d'.length = rest.length + 2 := by
  have hP : amt0.length = L := hlen amt0 (List.mem_cons_self _ _)
  have hLastLen : (rest.getLastD amt0).length = L :=
    hlen _ (getLastDMemCons _ _)
  have hle : (rest.getLastD amt0).length ≤ amt0.length := by
    rw [hLastLen, hP]
  refine ⟨_, _, _, _, fBDConsEq amt0 rest,
    (by rw [List.cons_append]
        exact fBDConsEq amt0 (rest ++ [List.replicate L (JSNum.num 0)])),
    ?_, ?_, ?_⟩
  · rw [dpTailAppend]
    simp only [List.map_append, List.map_cons, List.map_nil]
    rw [getLastDConcat]
    rw [dpRowFstGet _ _ _ _ _ (Nat.lt_succ_self _)]
    rw [dpCellOob _ _ _ _ hle]
  · rw [dpTailAppend]
    simp only [List.map_append, List.map_cons, List.map_nil,
      List.length_append, List.length_cons, List.length_nil, Nat.zero_add]
    by_cases h0 : amt0.length = 0
    · rw [h0, reconLoopZeroParts]
      exact getDReplicateZero _ _
    · rw [reconLoopStep _ _ _ _ h0]
      rw [reconGetDHi _ _ _ _ _ (Nat.le_refl _)]
      rw [setGetDSelf _ _ _
        (by rw [List.length_replicate]; exact Nat.lt_succ_self _)]
      simp only [List.getD_cons_succ]
      have hplen : (List.map Prod.snd
          (dpTail rest amt0 (ansRow0 amt0 amt0.length) amt0.length)).length =
          rest.length := by
        rw [List.length_map, dpTailLength]
      rw [← hplen, getDConcatLength]
      rw [dpRowSndGetD _ _ _ _ _ (Nat.lt_succ_self _)]
      rw [dpCellOob _ _ _ _ hle]
      exact sub_self _
  · rw [reconLength, List.length_replicate, List.length_append]
    rfl

/-! ## Claim theorems -/

/-- C1: the claim says `findBestDistribution` returns the exhaustive-DP
maximum over all integer splits. It does not: on `[[0,1],[0,10]]` (rows of
length `parts+1 = 2`, so one part) the exhaustive optimum is 10, but the code
returns `undefined` (its `parts` variable is the row length, so the final
readout `answers[pools-1][parts]` reads past the end of every row) with
distribution `[2,0]`; `undefined` is not any number, let alone the maximum. -/
theorem claim1_dp_not_exhaustive_max :
    findBestDistribution
      [[JSNum.num 0, JSNum.num 1], [JSNum.num 0, JSNum.num 10]] =
      Except.ok (JSNum.undef, [2, 0]) ∧
    specBestTotal [[0, 1], [0, 10]] 1 = 10 ∧
    (∀ v : Int, JSNum.undef ≠ JSNum.num v) :=
  ⟨rfl, by decide, fun v h => JSNum.noConfusion h⟩

/-- C3: on the spec's concrete matrix with `parts = 3` the claim demands
`totalAmountOut = 350` and distribution `[0,3,0]`; the code actually returns
`undefined` and `[4,0,0]`. -/
theorem claim3_concrete_case :
    findBestDistribution
      [[JSNum.num 0, JSNum.num 100, JSNum.num 200, JSNum.num 300],
       [JSNum.num 0, JSNum.num 150, JSNum.num 250, JSNum.num 350],
       [JSNum.num 0, JSNum.num 120, JSNum.num 220, JSNum.num 320]] =
      Except.ok (JSNum.undef, [4, 0, 0]) ∧
    JSNum.undef ≠ JSNum.num 350 ∧ ([4, 0, 0] : List Int) ≠ [0, 3, 0] :=
  ⟨rfl, by decide, by decide⟩

/-- C4: the claim says the distribution sums to `parts` (row length minus
one). On `[[0,3],[0,4]]` (`parts = 1`) the code returns distribution `[2,0]`
summing to 2, the row length, not 1. -/
theorem claim4_distribution_sum :
    findBestDistribution [[JSNum.num 0, JSNum.num 3], [JSNum.num 0, JSNum.num 4]] =
      Except.ok (JSNum.undef, [2, 0]) ∧
    ([2, 0] : List Int).sum = 2 ∧ (2 : Int) ≠ 1 :=
  ⟨rfl, by decide, by decide⟩

/-- C8: the claim says ties are broken toward the lowest `k` (least allocated
to the later venue). On `[[0,5,10],[0,5,10]]` every split of the 2 parts
yields 10, so the lowest-`k` optimum is `[2,0]`; the code returns `[3,0]`
(and an `undefined` total): its inner sweep keeps the last candidate beating
the raw `amounts[p-1][s]` baseline rather than the first optimum, and the
out-of-bounds readout adds a phantom part. -/
theorem claim8_tiebreak :
    findBestDistribution
      [[JSNum.num 0, JSNum.num 5, JSNum.num 10],
       [JSNum.num 0, JSNum.num 5, JSNum.num 10]] =
      Except.ok (JSNum.undef, [3, 0]) ∧
    specBestTotal [[0, 5, 10], [0, 5, 10]] 2 = 10 ∧
    ([3, 0] : List Int) ≠ [2, 0] :=
  ⟨rfl, by decide, by decide⟩

/-- C2: if any leg's payment callback fails with `TransferTokenInFailed`
(the ledger rejects the `transferFrom`), the whole multi-leg `aggregateSwap`
invocation reports exactly that error and the caller-observable state is the
pre-invocation state: every transfer of every leg — earlier, failing or
later — is rolled back. -/
theorem claim2_transfer_failed_atomic (cfg : Config) (sender : Addr)
    (routes : List Route) (m dl now : Nat) (s : State)
    (tok payer : Addr) (amt : Nat)
    (h : aggregateSwapBody cfg sender routes m dl now s =
      Except.error (Err.transferTokenInFailed tok payer amt)) :
    aggregateSwap cfg sender routes m dl now s =
      (Except.error (Err.transferTokenInFailed tok payer amt), s) := by
  unfold aggregateSwap
  rw [h]

/-- C2 witness: three legs; the user's allowance of 8 covers only the first
leg's payment of 5, the second leg's `transferFrom` is rejected, and the whole
settlement returns `TransferTokenInFailed` with the ledger exactly as before. -/
theorem claim2_transfer_failed_atomic_witness :
    aggregateSwap (cfgW 7) 2 routesW3 0 100 50 stW =
      (Except.error (Err.transferTokenInFailed 10 2 5), stW) :=
  claim2_transfer_failed_atomic (cfgW 7) 2 routesW3 0 100 50 stW 10 2 5 rfl

/-- C5: a callback invocation whose context derives (via the pure CREATE2
identity derivation) to an identity different from the actual caller fails
with the untrusted-caller error and performs no transfer (the returned state
is the input state), for any asset pair, fee tier and reported amounts. -/
theorem claim5_untrusted_callback (cfg : Config) (caller : Addr)
    (a0 a1 : Int) (data : SwapCallbackData) (s : State)
    (h1 : data.token0 < data.token1)
    (h2 : cfg.poolAddrOf data.token0 data.token1 data.poolFee ≠ caller) :
    uniswapV3SwapCallbackCall cfg caller a0 a1 data s =
      (Except.error Err.invalidCaller, s) := by
  unfold uniswapV3SwapCallbackCall uniswapV3SwapCallback computePoolAddress
  rw [if_pos h1]
  dsimp only
  rw [if_neg (fun hc => h2 hc.symm)]

/-- C5 witness: caller 999 is not the derived pool 11600 for the pair
(10, 11) at fee 500, so the callback is rejected and the state untouched. -/
theorem claim5_untrusted_callback_witness :
    uniswapV3SwapCallbackCall (cfgW 7) 999 5 (-7)
      { token0 := 10, token1 := 11, poolFee := 500 } stW =
      (Except.error Err.invalidCaller, stW) :=
  claim5_untrusted_callback (cfgW 7) 999 5 (-7)
    { token0 := 10, token1 := 11, poolFee := 500 } stW (by decide) (by decide)

/-- C10: if the callback is invoked by the correctly derived pool identity
with a bound payer but neither reported delta is positive, it transfers
nothing and returns successfully — no error of any kind is raised. -/
theorem claim10_nonpositive_deltas_noop (cfg : Config) (caller : Addr)
    (a0 a1 : Int) (data : SwapCallbackData) (s : State)
    (h1 : data.token0 < data.token1)
    (h2 : cfg.poolAddrOf data.token0 data.token1 data.poolFee = caller)
    (h3 : ¬ s.payerSlot = 0) (h4 : a0 ≤ 0) (h5 : a1 ≤ 0) :
    uniswapV3SwapCallbackCall cfg caller a0 a1 data s = (Except.ok (), s) := by
  unfold uniswapV3SwapCallbackCall uniswapV3SwapCallback computePoolAddress
  rw [if_pos h1]
  dsimp only
  rw [if_pos h2.symm, if_neg h3, if_neg (not_lt.mpr h4), if_neg (not_lt.mpr h5)]

/-- C10 witness: the derived pool 11600 calls back with deltas (-3, 0) and a
bound payer; the callback is a successful no-op. -/
theorem claim10_nonpositive_deltas_noop_witness :
    uniswapV3SwapCallbackCall (cfgW 7) 11600 (-3) 0
      { token0 := 10, token1 := 11, poolFee := 500 }
      { stW with payerSlot := 2 } =
      (Except.ok (), { stW with payerSlot := 2 }) :=
  claim10_nonpositive_deltas_noop (cfgW 7) 11600 (-3) 0
    { token0 := 10, token1 := 11, poolFee := 500 }
    { stW with payerSlot := 2 } (by decide) (by decide) (by decide)
    (by decide) (by decide)

/-- C6 counterexample: a successful `aggregateSwap` invocation (caller 5,
empty route list, deadline in the future) returns with the transient payer
slot still holding 5 — the binding is NOT cleared before control returns to
the caller on the success path; the source never writes the slot back to 0
and relies on end-of-transaction clearing instead. -/
theorem claim6_payer_not_cleared_counterexample :
    (aggregateSwap (cfgW 7) 5 [] 0 10 0 stW).1 = Except.ok () ∧
    (aggregateSwap (cfgW 7) 5 [] 0 10 0 stW).2.payerSlot = 5 ∧
    (5 : Addr) ≠ 0 :=
  ⟨rfl, rfl, by decide⟩

/-- C6 amended: on every failing exit path the revert rolls the whole state —
including the payer binding — back to the pre-invocation state, so no binding
from the invocation remains observable; but on the success path the payer
binding persists in the transient slot after the invocation returns (it is
cleared only at the end of the enclosing transaction, not before control
returns to the caller). -/
theorem claim6_payer_slot_lifecycle (cfg : Config) (sender : Addr)
    (routes : List Route) (m dl now : Nat) (s : State) :
    (∀ u : Unit, (aggregateSwap cfg sender routes m dl now s).1 = Except.ok u →
      (aggregateSwap cfg sender routes m dl now s).2.payerSlot = sender) ∧
    (∀ e : Err, (aggregateSwap cfg sender routes m dl now s).1 = Except.error e →
      (aggregateSwap cfg sender routes m dl now s).2 = s) := by
  constructor
  · intro u hu
    unfold aggregateSwap at hu ⊢
    revert hu
    cases hb : aggregateSwapBody cfg sender routes m dl now s with
    | error e => intro hu; exact absurd hu (by simp)
    | ok s1 =>
      intro _
      dsimp only
      unfold aggregateSwapBody at hb
      repeat' split at hb
      all_goals try exact Except.noConfusion hb
      all_goals
        cases hb
        have hps := execRoutesPayer cfg sender routes 0 _ _ (by assumption)
        simpa using hps
  · intro e he
    exact aggregateSwapErrState cfg sender routes m dl now s e he

/-- C6 amended witness: a concrete successful settlement leaves the payer
binding (caller 2) readable in the transient slot after returning. -/
theorem claim6_payer_slot_lifecycle_witness :
    (aggregateSwap (cfgW 7) 2 routesW1 0 100 50 stW).2.payerSlot = 2 :=
  (claim6_payer_slot_lifecycle (cfgW 7) 2 routesW1 0 100 50 stW).1 () rfl

/-- C7 counterexample: two successful settlements whose realized total
outputs differ (7 vs 9 units of token 11 delivered to caller 2) return the
identical value `Except.ok ()` — `aggregateSwap` has no return value in the
source, so the realized total output is not returned to the caller. -/
theorem claim7_no_total_returned_counterexample :
    (aggregateSwap (cfgW 7) 2 routesW1 0 100 50 stW).1 = Except.ok () ∧
    (aggregateSwap (cfgW 9) 2 routesW1 0 100 50 stW).1 = Except.ok () ∧
    (aggregateSwap (cfgW 7) 2 routesW1 0 100 50 stW).1 =
      (aggregateSwap (cfgW 9) 2 routesW1 0 100 50 stW).1 ∧
    (aggregateSwap (cfgW 7) 2 routesW1 0 100 50 stW).2.balances 11 2 = 7 ∧
    (aggregateSwap (cfgW 9) 2 routesW1 0 100 50 stW).2.balances 11 2 = 9 ∧
    (7 : Nat) ≠ 9 :=
  ⟨rfl, rfl, rfl, rfl, rfl, by decide⟩

/-- C7 amended: `aggregateSwap` succeeds (returning only `Except.ok ()`, no
amount) exactly when the deadline has not passed and the route loop runs to
completion with its accumulated total — the sum of the per-leg outputs of
`_swapByUniswapV3` — at least `minAmountOut`; the total is used only for that
check and is not returned. -/
theorem claim7_success_iff (cfg : Config) (sender : Addr) (routes : List Route)
    (m dl now : Nat) (s : State) :
    (aggregateSwap cfg sender routes m dl now s).1 = Except.ok () ↔
      (now ≤ dl ∧ ∃ total s',
        execRoutes cfg sender routes 0 { s with payerSlot := sender } =
          Except.ok (total, s') ∧ m ≤ total) := by
  unfold aggregateSwap aggregateSwapBody
  by_cases hd : dl < now
  · rw [if_pos hd]
    dsimp only
    constructor
    · intro h; exact absurd h (by simp)
    · rintro ⟨hnd, -⟩
      exact absurd hd (Nat.not_lt.mpr hnd)
  · rw [if_neg hd]
    have hnd : now ≤ dl := Nat.not_lt.mp hd
    cases hex : execRoutes cfg sender routes 0 { s with payerSlot := sender } with
    | error e =>
      dsimp only
      constructor
      · intro h; exact absurd h (by simp)
      · rintro ⟨-, total, s', hok, -⟩
        exact Except.noConfusion hok
    | ok p =>
      obtain ⟨total, s'⟩ := p
      dsimp only
      by_cases hm : m ≤ total
      · rw [if_pos hm]
        dsimp only
        constructor
        · intro _; exact ⟨hnd, total, s', rfl, hm⟩
        · intro _; rfl
      · rw [if_neg hm]
        dsimp only
        constructor
        · intro h; exact absurd h (by simp)
        · rintro ⟨-, t2, s2, hok, hm2⟩
          cases hok
          exact absurd hm2 hm

/-- C7 amended witness: the concrete single-leg success instantiates the
equivalence: the deadline holds and the route loop's accumulated total (7)
meets the minimum (0). -/
theorem claim7_success_iff_witness :
    50 ≤ 100 ∧ ∃ total s',
      execRoutes (cfgW 7) 2 routesW1 0 { stW with payerSlot := 2 } =
        Except.ok (total, s') ∧ 0 ≤ total :=
  (claim7_success_iff (cfgW 7) 2 routesW1 0 100 50 stW).mp rfl

/-- C9 witness: appending an all-zero venue to the one-venue matrix
`[[0,1]]` leaves the total unchanged and assigns 0 parts to the new venue. -/
theorem claim9_append_zero_venue_witness :
    ∃ t d t' d',
      findBestDistribution [[JSNum.num 0, JSNum.num 1]] = Except.ok (t, d) ∧
      findBestDistribution
        ([[JSNum.num 0, JSNum.num 1]] ++ [List.replicate 2 (JSNum.num 0)]) =
        Except.ok (t', d') ∧
      t' = t ∧ d'.getD 1 0 = 0 ∧ d'.length = 2 :=
  claim9_append_zero_venue [JSNum.num 0, JSNum.num 1] [] 2 (by
    intro r hr
    cases hr with
    | head => rfl
    | tail _ h => cases h)
